import Mathlib

/-!
# Verification of the RandomBG background-rotation core

Shallow embedding of the scheduler core of the RandomBG repository
(`random_bg/app.py` and `random_bg/wallpaper.py`) and proofs about it.

Modelling conventions:
* Filesystem paths are sequences of segments (`Path := List String`);
  `os.path.join(folder, entry)` becomes `folder ++ [entry]` and
  `pathlib.Path(p).parent` becomes `p.dropLast`.
* Randomness (`random.shuffle`, `random.randint`) is modelled by explicit
  oracles: a shuffle is an arbitrary function on lists (constrained, where a
  claim needs it, to return a permutation of its input, which is the one
  guarantee `random.shuffle` gives), and `random.randint(a, b)` consumes a
  `Nat` oracle `r` and returns `a + r % (b - a + 1)`.
* Python exceptions are modelled with `Except PyErr`; `threading.Lock` is
  non-reentrant, so acquiring it while it is already held by the same thread
  blocks forever — modelled as the `Option` value `none` (divergence).
-/

namespace RandomBG

/-- A filesystem path, as a sequence of segments. -/
abbrev Path := List String

/-- Python exception classes relevant to the embedded code. -/
inductive PyErr
  | fileNotFoundError
  | typeError
  | attributeError
  | valueError
  | indexError
  deriving DecidableEq, Repr

/-! ## `wallpaper.iter_images` and its extension filter -/

/-- Lower-case a string, as Python `str.lower` does for ASCII names. -/
def strLower (s : String) : String :=
  String.mk (s.data.map Char.toLower)

/-- The extension part of `os.path.splitext(name)[1]` for a bare file name
(no directory separators): the suffix starting at the last dot, provided at
least one character before that dot is not itself a dot (so dotfiles like
`".png"` have no extension). -/
def splitextExt (name : String) : String :=
  let rcs := name.data.reverse
  match rcs.findIdx? (fun c => c = '.') with
  | none => ""
  | some k =>
      let pre := (rcs.drop (k + 1)).reverse
      if pre.any (fun c => c ≠ '.') then String.mk ('.' :: (rcs.take k).reverse)
      else ""

/-- The extension set accepted by `iter_images`. -/
def supported_extensions : List String := [".png", ".jpg", ".jpeg", ".bmp", ".gif"]

/-- Whether a file name passes the `iter_images` filter:
`os.path.splitext(entry)[1].lower() in supported_extensions`. -/
def isSupportedName (name : String) : Bool :=
  supported_extensions.contains (strLower (splitextExt name))

/-- One entry of `os.listdir(folder)`, together with the result of
`os.path.isfile(os.path.join(folder, entry))`. -/
structure DirEntry where
  name : String
  isFile : Bool
  deriving DecidableEq, Repr

/-- The state of the configured folder: `none` when `os.path.isdir(folder)`
is false (missing or not a directory), otherwise the directory listing. -/
abbrev FolderFS := Option (List DirEntry)

/-- Embeds `wallpaper.iter_images`: empty list for a missing/non-directory
folder, otherwise the eligible entries joined onto the folder path and
passed through `random.shuffle` (the shuffle oracle `sh`). -/
def iter_images (fs : FolderFS) (folder : Path) (sh : List Path → List Path) :
    List Path :=
  match fs with
  | none => []
  | some entries =>
      sh ((entries.filter (fun e => e.isFile && isSupportedName e.name)).map
        (fun e => folder ++ [e.name]))

/-! ## `wallpaper.set_wallpaper` and the platform handlers -/

/-- The operating system reported by `platform.system().lower()`. -/
inductive OS
  | windows
  | macos
  | linux
  deriving DecidableEq, Repr

/-- Environment facts the effect layer depends on. -/
structure Env where
  os : OS
  /-- whether the `osascript` executable exists (macOS handler). -/
  osascriptAvailable : Bool
  /-- whether the `gsettings` executable exists (Linux handler). -/
  gsettingsAvailable : Bool
  /-- whether `PIL.Image.open/save` succeeds in `_write_shared_wallpaper`. -/
  pilSaveOk : Bool
  /-- whether the raw `shutil.copyfile` fallback succeeds. -/
  copyOk : Bool
  deriving DecidableEq, Repr

/-- Observable effects of the sink layer, in program order. -/
inductive Effect
  | sharedWrite (target : Path)
  | applyOS (p : Path)
  | edgeSync (p : Path)
  | chromeSync (p : Path)
  | firefoxSync (p : Path)
  deriving DecidableEq, Repr

/-- The fixed shared-copy target of `_write_shared_wallpaper`:
`Path(image_path).parent / "randombg_wallpaper.png"`. -/
def sharedTarget (image_path : Path) : Path :=
  image_path.dropLast ++ ["randombg_wallpaper.png"]

/-- Embeds `_write_shared_wallpaper`: try the Pillow re-encode, fall back to a
raw copy, return `none` when both fail. All exceptions are caught inside, so
the function itself never raises. -/
def write_shared_wallpaper (env : Env) (image_path : Path) : Option Path :=
  if env.pilSaveOk then some (sharedTarget image_path)
  else if env.copyOk then some (sharedTarget image_path)
  else none

/-- Embeds `_platform_handler()` followed by `handler(path)`.
`subprocess.run([...], check=False)` swallows a nonzero exit status but still
raises `FileNotFoundError` when the executable itself is missing; the Windows
`ctypes` call reports failure through its return value and raises nothing. -/
def platform_handler_apply (env : Env) (p : Path) : Except PyErr (List Effect) :=
  match env.os with
  | .windows => .ok [.applyOS p]
  | .macos =>
      if env.osascriptAvailable then .ok [.applyOS p]
      else .error .fileNotFoundError
  | .linux =>
      if env.gsettingsAvailable then .ok [.applyOS p]
      else .error .fileNotFoundError

/-- Embeds `wallpaper.set_wallpaper`. Returns the effect trace produced
before returning or raising, and the exception if one escaped (the function
body has no try/except of its own, so a handler exception propagates). -/
def set_wallpaper (env : Env) (image_path : Path)
    (apply_wallpaper sync_edge sync_chrome sync_firefox : Bool) :
    List Effect × Option PyErr :=
  let shared := write_shared_wallpaper env image_path
  let sharedAttempt : List Effect := [.sharedWrite (sharedTarget image_path)]
  let effective_browser := shared.getD image_path
  match (if apply_wallpaper then platform_handler_apply env image_path
         else .ok []) with
  | .error e => (sharedAttempt, some e)
  | .ok applyEffs =>
      let syncs : List Effect :=
        if env.os = .windows then
          (if sync_edge then [Effect.edgeSync effective_browser] else []) ++
          (if sync_chrome then [Effect.chromeSync effective_browser] else []) ++
          (if sync_firefox then [Effect.firefoxSync effective_browser] else [])
        else []
      (sharedAttempt ++ applyEffs ++ syncs, none)

/-! ## `WallpaperService` pool state -/

/-- The mutable pool state of `WallpaperService`: `self._images` and
`self._index` (a Python int, `-1` after a refresh). -/
structure ServiceState where
  images : List Path
  index : Int
  deriving DecidableEq, Repr

/-- `WallpaperService.__init__`: empty pool, index 0. -/
def ServiceState.init : ServiceState := { images := [], index := 0 }

/-- Python list indexing `l[i]`: negative indices count from the end, an
index out of range raises `IndexError` (here `none`). -/
def pyIndex (l : List Path) (i : Int) : Option Path :=
  let j : Int := if i < 0 then (l.length : Int) + i else i
  if 0 ≤ j ∧ j < (l.length : Int) then l[j.toNat]? else none

/-- Embeds `WallpaperService.refresh_images`. The body runs under
`with self._lock:`; `threading.Lock` is non-reentrant, so if the calling
thread already holds the lock (`lockHeld = true`) the acquisition blocks
forever, modelled as `none`. Otherwise the pool is replaced by the fresh
`iter_images` listing and the index set to `-1`. -/
def refresh_images (lockHeld : Bool) (fs : FolderFS) (folder : Path)
    (shR : List Path → List Path) (_s : ServiceState) : Option ServiceState :=
  if lockHeld then none
  else some { images := iter_images fs folder shR, index := -1 }

/-- Embeds `WallpaperService.next_wallpaper` up to (and including) choosing
the image path; the subsequent `set_wallpaper` call happens outside the lock
and is modelled separately. The outer `Option` is divergence or an escaping
error: `none` arises when the empty-pool branch calls `refresh_images` while
already holding the non-reentrant `self._lock` (deadlock), or if the final
indexing step were out of range. On `some (s', p?)`, `s'` is the pool state
after the call and `p?` the picked path passed to `set_wallpaper`
(`none` = the no-op return, no wallpaper applied). `sh` is the
`random.shuffle` oracle used at the wrap boundary, `shR` the one inside a
refresh. -/
def next_wallpaper (fs : FolderFS) (folder : Path)
    (shR sh : List Path → List Path) (s : ServiceState) :
    Option (ServiceState × Option Path) :=
  match (if s.images.isEmpty then refresh_images true fs folder shR s
         else some s) with
  | none => none
  | some s1 =>
      if s1.images.isEmpty then some (s1, none)
      else
        let nextIndex : Int := s1.index + 1
        if nextIndex ≥ (s1.images.length : Int) then
          let shuffled := sh s1.images
          match pyIndex shuffled 0 with
          | none => none
          | some p => some ({ images := shuffled, index := 0 }, some p)
        else
          match pyIndex s1.images nextIndex with
          | none => none
          | some p => some ({ images := s1.images, index := nextIndex }, some p)

/-! ## `Settings` and `WallpaperService._next_wait` -/

def DEFAULT_INTERVAL : Int := 300
def DEFAULT_FOLDER : String := "HOME"
def DEFAULT_RANDOM_MIN : Int := 60
def DEFAULT_RANDOM_MAX : Int := 600

/-- The scheduler-relevant fields of `Settings` (Python ints are unbounded,
so `Int`). -/
structure SettingsT where
  interval_seconds : Int
  random_mode : Bool
  random_min_seconds : Int
  random_max_seconds : Int
  deriving DecidableEq, Repr

/-- `random.randint(a, b)` for `a ≤ b`, with the random draw supplied by the
oracle `r`: some value in `[a, b]`. -/
def randint (a b : Int) (r : Nat) : Int :=
  a + (r : Int) % (b - a + 1)

/-- Embeds `WallpaperService._next_wait`; `r` is the fresh `random.randint`
oracle consumed on this call (only used in random mode). -/
def next_wait (st : SettingsT) (r : Nat) : Int :=
  let min_wait := max 10 st.random_min_seconds
  let max_wait := max min_wait st.random_max_seconds
  if st.random_mode then randint min_wait max_wait r
  else max 10 st.interval_seconds

/-! ## `Settings.load` and the configuration file -/

/-- A parsed JSON value as `json.load` produces it (numbers restricted to
integers, which is all the configuration format uses). -/
inductive JsonVal
  | null
  | bool (b : Bool)
  | num (n : Int)
  | str (s : String)
  | arr (xs : List JsonVal)
  | obj (kvs : List (String × JsonVal))

/-- The observable state of `~/.random_bg_config.json`. -/
inductive ConfigFile
  | absent
  | unreadable
  | invalidJson
  | parsed (v : JsonVal)

/-- `dict.get(key, default)` over the association list of a JSON object. -/
def jget (kvs : List (String × JsonVal)) (key : String) (dflt : JsonVal) :
    JsonVal :=
  match kvs.find? (fun kv => kv.1 = key) with
  | some kv => kv.2
  | none => dflt

/-- Python `int(x)` on a JSON value: ints pass through, bools are 0/1
(`bool` is an `int` subclass), numeric strings parse (`ValueError`
otherwise), everything else raises `TypeError`. -/
def pyInt : JsonVal → Except PyErr Int
  | .num n => .ok n
  | .bool b => .ok (if b then 1 else 0)
  | .str s =>
      match s.toInt? with
      | some n => .ok n
      | none => .error .valueError
  | _ => .error .typeError

/-- Python `bool(x)` truthiness on a JSON value; never raises. -/
def pyBool : JsonVal → Bool
  | .null => false
  | .bool b => b
  | .num n => n ≠ 0
  | .str s => s ≠ ""
  | .arr xs => ¬xs.isEmpty
  | .obj kvs => ¬kvs.isEmpty

/-- The full `Settings` record; `folder` keeps the raw JSON value since the
Python code stores `data.get("folder", ...)` without conversion. -/
structure SettingsFull where
  folder : JsonVal
  interval_seconds : Int
  autostart_enabled : Bool
  random_mode : Bool
  random_min_seconds : Int
  random_max_seconds : Int
  edge_background_enabled : Bool

/-- The defaults branch `cls(autostart_enabled=autostart_default)`:
every field at its dataclass default except autostart. -/
def defaultSettings (autostart_default : Bool) : SettingsFull :=
  { folder := .str DEFAULT_FOLDER
    interval_seconds := DEFAULT_INTERVAL
    autostart_enabled := autostart_default
    random_mode := false
    random_min_seconds := DEFAULT_RANDOM_MIN
    random_max_seconds := DEFAULT_RANDOM_MAX
    edge_background_enabled := false }

/-- The body of the `try:` block once `json.load` has produced `data`:
each `data.get(...)` call raises `AttributeError` unless `data` is a dict,
and the `int(...)` conversions may raise `ValueError` or `TypeError`
(evaluated in the keyword-argument order of the source). -/
def loadFromData (autostart_default : Bool) (v : JsonVal) :
    Except PyErr SettingsFull :=
  match v with
  | .obj kvs =>
      match pyInt (jget kvs "interval_seconds" (.num DEFAULT_INTERVAL)) with
      | .error e => .error e
      | .ok interval =>
        match pyInt (jget kvs "random_min_seconds" (.num DEFAULT_RANDOM_MIN)) with
        | .error e => .error e
        | .ok rmin =>
          match pyInt (jget kvs "random_max_seconds" (.num DEFAULT_RANDOM_MAX)) with
          | .error e => .error e
          | .ok rmax =>
              .ok { folder := jget kvs "folder" (.str DEFAULT_FOLDER)
                    interval_seconds := interval
                    autostart_enabled :=
                      pyBool (jget kvs "autostart_enabled" (.bool autostart_default))
                    random_mode := pyBool (jget kvs "random_mode" (.bool false))
                    random_min_seconds := rmin
                    random_max_seconds := rmax
                    edge_background_enabled :=
                      pyBool (jget kvs "edge_background_enabled" (.bool false)) }
  | _ => .error .attributeError

/-- Embeds `Settings.load`. `autostart_default` is the result of
`AutostartManager().is_enabled()`. The `try` block covers reading, JSON
parsing and field construction, and catches exactly `(OSError, ValueError)`
— an unreadable file (OSError) or invalid JSON (`json.JSONDecodeError`,
a `ValueError` subclass) or a failing numeric string conversion all fall
back to the defaults, while `TypeError`/`AttributeError` escape. -/
def Settings.load (autostart_default : Bool) (cfg : ConfigFile) :
    Except PyErr SettingsFull :=
  match cfg with
  | .absent => .ok (defaultSettings autostart_default)
  | .unreadable => .ok (defaultSettings autostart_default)
  | .invalidJson => .ok (defaultSettings autostart_default)
  | .parsed v =>
      match loadFromData autostart_default v with
      | .ok s => .ok s
      | .error .valueError => .ok (defaultSettings autostart_default)
      | .error e => .error e

/-! ## Pick traces of repeated `next_wallpaper` calls

`npChain s k` is the pool state after `k` consecutive successful calls to
`next_wallpaper` starting from `s`, the `k`-th call using the shuffle oracle
`shs k`; `npPick k` is the image the `(k+1)`-st call hands to
`set_wallpaper` (`none` for the empty-pool no-op). -/

def npChain (fs : FolderFS) (folder : Path) (shR : List Path → List Path)
    (shs : Nat → List Path → List Path) (s : ServiceState) :
    Nat → Option ServiceState
  | 0 => some s
  | k + 1 => (npChain fs folder shR shs s k).bind
      (fun s' => (next_wallpaper fs folder shR (shs k) s').map Prod.fst)

/-- The image picked by the `(k+1)`-st call of `next_wallpaper` in the trace
(`none` if an earlier call diverged, or if the call was the empty-pool
no-op). -/
def npPick (fs : FolderFS) (folder : Path) (shR : List Path → List Path)
    (shs : Nat → List Path → List Path) (s : ServiceState) (k : Nat) :
    Option Path :=
  (npChain fs folder shR shs s k).bind
    (fun s' => (next_wallpaper fs folder shR (shs k) s').bind (fun pr => pr.2))

/-- The successive orderings of the pool along a trace that starts from a
freshly refreshed pool `l`: cycle `0` is `l` itself, and the wrap at pick
`(i+1) * l.length` re-permutes, giving cycle `i+1`. -/
def cycles (l : List Path) (shs : Nat → List Path → List Path) :
    Nat → List Path
  | 0 => l
  | i + 1 => shs ((i + 1) * l.length) (cycles l shs i)

/-- The pool invariant of the spec: once the image list is non-empty, the
cursor is `-1` ("must reshuffle before first pick") or a valid index. -/
def poolInv (s : ServiceState) : Prop :=
  s.images ≠ [] →
    s.index = -1 ∨ (0 ≤ s.index ∧ s.index < (s.images.length : Int))

/-- A concrete three-image pool used to exhibit wrap-boundary behaviour. -/
def demoPool : List Path := [["a"], ["b"], ["c"]]

/-- A concrete stream of shuffle outcomes: the wrap after the first cycle
reverses the pool (a legal `random.shuffle` outcome), later wraps leave it
unchanged (also legal). -/
def demoShs : Nat → List Path → List Path :=
  fun k xs => if k = 3 then xs.reverse else xs

lemma cycles_perm (l : List Path) (shs : Nat → List Path → List Path)
    (hsh : ∀ k xs, (shs k xs).Perm xs) : ∀ i, (cycles l shs i).Perm l := by
  intro i
  induction i with
  | zero => exact List.Perm.refl l
  | succ i ih => exact ((hsh _ _).trans ih)

lemma cycles_length (l : List Path) (shs : Nat → List Path → List Path)
    (hsh : ∀ k xs, (shs k xs).Perm xs) (i : Nat) :
    (cycles l shs i).length = l.length :=
  (cycles_perm l shs hsh i).length_eq

lemma cycles_ne_nil (l : List Path) (shs : Nat → List Path → List Path)
    (hsh : ∀ k xs, (shs k xs).Perm xs) (hl : l ≠ []) (i : Nat) :
    cycles l shs i ≠ [] := by
  have hlen := cycles_length l shs hsh i
  intro h
  rw [h, List.length_nil] at hlen
  exact hl (List.length_eq_zero.mp hlen.symm)

lemma succ_div_of_mod_succ_lt (k n : Nat) (h : k % n + 1 < n) :
    (k + 1) / n = k / n ∧ (k + 1) % n = k % n + 1 := by
  have hn0 : 0 < n := lt_of_le_of_lt (Nat.zero_le _) h
  have hk : k + 1 = (k % n + 1) + n * (k / n) := by
    have := Nat.mod_add_div k n
    omega
  constructor
  · rw [hk, Nat.add_mul_div_left _ _ hn0, Nat.div_eq_of_lt h, Nat.zero_add]
  · rw [hk, Nat.add_mul_mod_self_left, Nat.mod_eq_of_lt h]

lemma succ_div_of_mod_succ_eq (k n : Nat) (hn0 : 0 < n) (h : k % n + 1 = n) :
    (k + 1) / n = k / n + 1 ∧ (k + 1) % n = 0 ∧ k + 1 = (k / n + 1) * n := by
  have hk : k + 1 = (k / n + 1) * n := by
    have := Nat.mod_add_div k n
    have hmul : (k / n + 1) * n = n * (k / n) + n := by ring
    omega
  refine ⟨?_, ?_, hk⟩
  · rw [hk, Nat.mul_div_cancel _ hn0]
  · rw [hk, Nat.mul_mod_left]

lemma pyIndex_coe (l : List Path) (i : Nat) (h : i < l.length) :
    pyIndex l (i : Int) = l[i]? := by
  simp only [pyIndex]
  have h0 : ¬((i : Int) < 0) := by omega
  rw [if_neg h0, if_pos ⟨by omega, by exact_mod_cast h⟩, Int.toNat_ofNat]

/-- `next_wallpaper` on a non-empty pool, non-wrapping case. -/
lemma next_wallpaper_no_wrap (fs : FolderFS) (folder : Path)
    (shR sh : List Path → List Path) (p : List Path) (e : Int)
    (hp : p ≠ []) (he : 0 ≤ e + 1) (hlt : e + 1 < (p.length : Int)) :
    next_wallpaper fs folder shR sh ⟨p, e⟩ =
      some (⟨p, e + 1⟩, p[(e + 1).toNat]?) := by
  have hemp : p.isEmpty = false := by
    cases p with
    | nil => exact absurd rfl hp
    | cons a t => rfl
  have hnat : (e + 1).toNat < p.length := by omega
  have hpy : pyIndex p (e + 1) = some p[(e + 1).toNat] := by
    simp only [pyIndex]
    rw [if_neg (by omega : ¬(e + 1 < 0)), if_pos ⟨he, hlt⟩]
    exact List.getElem?_eq_getElem hnat
  simp only [next_wallpaper, hemp, Bool.false_eq_true, if_false,
    if_neg (not_le.mpr hlt), hpy, List.getElem?_eq_getElem hnat]

/-- `next_wallpaper` on a non-empty pool, wrap case: the pool is
re-permuted by the shuffle oracle and the cursor reset to 0. -/
lemma next_wallpaper_wrap (fs : FolderFS) (folder : Path)
    (shR sh : List Path → List Path) (p : List Path) (e : Int)
    (hp : p ≠ []) (hshp : sh p ≠ [])
    (hge : (p.length : Int) ≤ e + 1) :
    next_wallpaper fs folder shR sh ⟨p, e⟩ =
      some (⟨sh p, 0⟩, (sh p)[0]?) := by
  have hemp : p.isEmpty = false := by
    cases p with
    | nil => exact absurd rfl hp
    | cons a t => rfl
  have hlen : 0 < (sh p).length := List.length_pos.mpr hshp
  have hpy : pyIndex (sh p) 0 = some (sh p)[0] := by
    simp only [pyIndex]
    rw [if_neg (by omega : ¬((0 : Int) < 0)),
      if_pos ⟨le_refl _, by exact_mod_cast hlen⟩]
    exact List.getElem?_eq_getElem hlen
  simp only [next_wallpaper, hemp, Bool.false_eq_true, if_false,
    if_pos hge, hpy, List.getElem?_eq_getElem hlen]

lemma shs_cycles_ne_nil (l : List Path) (shs : Nat → List Path → List Path)
    (hsh : ∀ k xs, (shs k xs).Perm xs) (hl : l ≠ []) (j i : Nat) :
    shs j (cycles l shs i) ≠ [] := by
  intro h
  have hperm := (hsh j (cycles l shs i)).trans (cycles_perm l shs hsh i)
  have hlen := hperm.length_eq
  rw [h, List.length_nil] at hlen
  exact hl (List.length_eq_zero.mp hlen.symm)

/-- The pool state along a trace that starts from a freshly refreshed pool:
after `k + 1` picks the pool holds cycle `k / N` with the cursor at
`k % N`. -/
lemma npChain_closed (fs : FolderFS) (folder : Path)
    (shR : List Path → List Path) (shs : Nat → List Path → List Path)
    (l : List Path) (hl : l ≠ []) (hsh : ∀ k xs, (shs k xs).Perm xs)
    (k : Nat) :
    npChain fs folder shR shs ⟨l, -1⟩ (k + 1) =
      some ⟨cycles l shs (k / l.length), ((k % l.length : Nat) : Int)⟩ := by
  have hn0 : 0 < l.length := List.length_pos.mpr hl
  have hlen := cycles_length l shs hsh
  have hnil := cycles_ne_nil l shs hsh hl
  induction k with
  | zero =>
      have hstep := next_wallpaper_no_wrap fs folder shR (shs 0) l (-1) hl
        (by omega) (by omega)
      have hun : npChain fs folder shR shs ⟨l, -1⟩ 1 =
          (some ⟨l, -1⟩).bind
            (fun s' => (next_wallpaper fs folder shR (shs 0) s').map
              Prod.fst) := rfl
      rw [hun, Option.some_bind, hstep, Option.map_some']
      simp [cycles, Nat.zero_div, Nat.zero_mod]
  | succ k ih =>
      have hun : npChain fs folder shR shs ⟨l, -1⟩ (k + 1 + 1) =
          (npChain fs folder shR shs ⟨l, -1⟩ (k + 1)).bind
            (fun s' => (next_wallpaper fs folder shR (shs (k + 1)) s').map
              Prod.fst) := rfl
      rw [hun, ih, Option.some_bind]
      rcases Nat.lt_or_ge (k % l.length + 1) l.length with hA | hB
      · obtain ⟨hdiv, hmod⟩ := succ_div_of_mod_succ_lt k l.length hA
        rw [next_wallpaper_no_wrap fs folder shR (shs (k + 1)) _ _
          (hnil _) (by omega) (by rw [hlen (k / l.length)]; exact_mod_cast hA)]
        rw [Option.map_some', hdiv, hmod]
        norm_num
      · have hEq : k % l.length + 1 = l.length :=
          le_antisymm (Nat.succ_le_of_lt (Nat.mod_lt k hn0)) hB
        obtain ⟨hdiv, hmod, hmul⟩ :=
          succ_div_of_mod_succ_eq k l.length hn0 hEq
        rw [next_wallpaper_wrap fs folder shR (shs (k + 1)) _ _
          (hnil _) (shs_cycles_ne_nil l shs hsh hl _ _)
          (by rw [hlen (k / l.length)]; exact_mod_cast hEq.ge)]
        rw [Option.map_some', hdiv, hmod]
        simp only [cycles, ← hmul]
        norm_num

/-- The image chosen by pick `k` along a trace from a freshly refreshed
pool: entry `k % N` of cycle `k / N`. -/
lemma npPick_closed (fs : FolderFS) (folder : Path)
    (shR : List Path → List Path) (shs : Nat → List Path → List Path)
    (l : List Path) (hl : l ≠ []) (hsh : ∀ k xs, (shs k xs).Perm xs)
    (k : Nat) :
    npPick fs folder shR shs ⟨l, -1⟩ k =
      (cycles l shs (k / l.length))[k % l.length]? := by
  have hn0 : 0 < l.length := List.length_pos.mpr hl
  have hlen := cycles_length l shs hsh
  have hnil := cycles_ne_nil l shs hsh hl
  cases k with
  | zero =>
      have hstep := next_wallpaper_no_wrap fs folder shR (shs 0) l (-1) hl
        (by omega) (by omega)
      have hun : npPick fs folder shR shs ⟨l, -1⟩ 0 =
          (some ⟨l, -1⟩).bind
            (fun s' => (next_wallpaper fs folder shR (shs 0) s').bind
              (fun pr => pr.2)) := rfl
      rw [hun, Option.some_bind, hstep, Option.some_bind]
      simp [cycles, Nat.zero_div, Nat.zero_mod,
        List.getElem?_eq_getElem hn0]
  | succ k =>
      have hun : npPick fs folder shR shs ⟨l, -1⟩ (k + 1) =
          (npChain fs folder shR shs ⟨l, -1⟩ (k + 1)).bind
            (fun s' => (next_wallpaper fs folder shR (shs (k + 1)) s').bind
              (fun pr => pr.2)) := rfl
      rw [hun, npChain_closed fs folder shR shs l hl hsh k, Option.some_bind]
      rcases Nat.lt_or_ge (k % l.length + 1) l.length with hA | hB
      · obtain ⟨hdiv, hmod⟩ := succ_div_of_mod_succ_lt k l.length hA
        rw [next_wallpaper_no_wrap fs folder shR (shs (k + 1)) _ _
          (hnil _) (by omega) (by rw [hlen (k / l.length)]; exact_mod_cast hA)]
        rw [Option.some_bind, hdiv, hmod]
        have hnat : ((((k % l.length : Nat) : Int)) + 1).toNat =
            k % l.length + 1 := by omega
        rw [hnat]
      · have hEq : k % l.length + 1 = l.length :=
          le_antisymm (Nat.succ_le_of_lt (Nat.mod_lt k hn0)) hB
        obtain ⟨hdiv, hmod, hmul⟩ :=
          succ_div_of_mod_succ_eq k l.length hn0 hEq
        rw [next_wallpaper_wrap fs folder shR (shs (k + 1)) _ _
          (hnil _) (shs_cycles_ne_nil l shs hsh hl _ _)
          (by rw [hlen (k / l.length)]; exact_mod_cast hEq.ge)]
        rw [Option.some_bind, hdiv, hmod]
        simp only [cycles, ← hmul]

lemma next_wallpaper_empty (fs : FolderFS) (folder : Path)
    (shR sh : List Path → List Path) (idx : Int) :
    next_wallpaper fs folder shR sh ⟨[], idx⟩ = none := rfl

lemma next_wallpaper_wrap_shuffle_nil (fs : FolderFS) (folder : Path)
    (shR sh : List Path → List Path) (p : List Path) (e : Int)
    (hp : p ≠ []) (hshp : sh p = [])
    (hge : (p.length : Int) ≤ e + 1) :
    next_wallpaper fs folder shR sh ⟨p, e⟩ = none := by
  have hemp : p.isEmpty = false := by
    cases p with
    | nil => exact absurd rfl hp
    | cons a t => rfl
  have hpy : pyIndex (sh p) 0 = none := by
    rw [hshp]
    simp [pyIndex]
  simp only [next_wallpaper, hemp, Bool.false_eq_true, if_false,
    if_pos hge, hpy]

/-! ## Claim theorems -/

/-- C1 (code bug): in every scheduler state whose pool is empty — in
particular when the configured folder yields no eligible images — a pick
does **not** terminate as a no-op: `next_wallpaper` takes the non-reentrant
`self._lock` and then calls `refresh_images`, which blocks forever trying to
re-acquire the same lock. The modelled call diverges (`none`) instead of
refreshing and returning. -/
theorem nextWallpaper_emptyPool_deadlocks (fs : FolderFS) (folder : Path)
    (shR sh : List Path → List Path) (idx : Int) :
    next_wallpaper fs folder shR sh ⟨[], idx⟩ = none :=
  next_wallpaper_empty fs folder shR sh idx

/-- C2 (code bug): a platform-command failure does escape the
`set_wallpaper` boundary. `subprocess.run(..., check=False)` only swallows a
nonzero exit status; when the `gsettings` binary is absent on Linux the call
raises `FileNotFoundError`, and `set_wallpaper` has no handler, so the
exception propagates to the scheduler. Evaluated at a concrete failing
environment. -/
theorem setWallpaper_missingGsettings_raises :
    set_wallpaper ⟨.linux, true, false, true, true⟩ ["pics", "a.png"]
      true false false false =
      ([.sharedWrite ["pics", "randombg_wallpaper.png"]],
        some .fileNotFoundError) := rfl

/-- C5 counterexample: with `random_mode` on and
`random_min_seconds = random_max_seconds = 5`, the computed wait is 10,
which does **not** lie in the claimed inclusive range
`[max 10 random_min, max random_min random_max] = [10, 5]`. -/
theorem next_wait_range_counterexample :
    next_wait ⟨300, true, 5, 5⟩ 0 = 10 ∧
    ¬(next_wait ⟨300, true, 5, 5⟩ 0 ≤
        max (5 : Int) 5) := by
  constructor
  · rfl
  · intro h
    have : next_wait ⟨300, true, 5, 5⟩ 0 = 10 := rfl
    rw [this] at h
    omega

/-- C5 amended: in Fixed mode the wait is `max 10 interval_seconds`; in
Randomized mode the wait (freshly drawn each call via the oracle `r`) lies
in the inclusive range from `max 10 random_min_seconds` to
`max (max 10 random_min_seconds) random_max_seconds` — the upper bound is
also clamped by the effective minimum, which matters only when both bounds
are below 10. -/
theorem next_wait_spec (st : SettingsT) (r : Nat) :
    (st.random_mode = false → next_wait st r = max 10 st.interval_seconds) ∧
    (st.random_mode = true →
      max 10 st.random_min_seconds ≤ next_wait st r ∧
      next_wait st r ≤
        max (max 10 st.random_min_seconds) st.random_max_seconds) := by
  constructor
  · intro h
    simp [next_wait, h]
  · intro h
    simp only [next_wait, h, if_true, randint]
    have hab : max 10 st.random_min_seconds ≤
        max (max 10 st.random_min_seconds) st.random_max_seconds :=
      le_max_left _ _
    have h1 : (0 : Int) <
        max (max 10 st.random_min_seconds) st.random_max_seconds -
          max 10 st.random_min_seconds + 1 := by omega
    have h2 : 0 ≤ (r : Int) %
        (max (max 10 st.random_min_seconds) st.random_max_seconds -
          max 10 st.random_min_seconds + 1) :=
      Int.emod_nonneg _ (by omega)
    have h3 : (r : Int) %
        (max (max 10 st.random_min_seconds) st.random_max_seconds -
          max 10 st.random_min_seconds + 1) <
        max (max 10 st.random_min_seconds) st.random_max_seconds -
          max 10 st.random_min_seconds + 1 :=
      Int.emod_lt_of_pos _ h1
    omega

/-- Witness for `next_wait_spec` at concrete settings: Fixed mode with a
300-second interval waits 300 seconds; Randomized mode with bounds 60/600
yields a wait inside `[60, 600]`. -/
theorem next_wait_spec_witness :
    next_wait ⟨300, false, 60, 600⟩ 0 = 300 ∧
    max 10 (60 : Int) ≤ next_wait ⟨300, true, 60, 600⟩ 7 ∧
    next_wait ⟨300, true, 60, 600⟩ 7 ≤ max (max 10 (60 : Int)) 600 := by
  refine ⟨?_, ((next_wait_spec ⟨300, true, 60, 600⟩ 7).2 rfl).1,
    ((next_wait_spec ⟨300, true, 60, 600⟩ 7).2 rfl).2⟩
  have h := (next_wait_spec ⟨300, false, 60, 600⟩ 0).1 rfl
  rw [h]
  rfl

/-- C9 counterexample: a readable, well-formed JSON config file whose top
level is not an object (here the valid JSON document `[]`) makes
`Settings.load` raise `AttributeError` from `data.get`, instead of
returning a `Settings` with every field defaulted. -/
theorem settings_load_nonobject_counterexample :
    Settings.load false (.parsed (.arr [])) = .error .attributeError := rfl

/-- C9 amended: for an absent, unreadable, or invalid-JSON configuration
file, `Settings.load` returns the defaults without raising; and whenever the
file holds a well-formed JSON **object** and `load` returns a `Settings`
(it can still raise `TypeError` when a present int-field value is not
int-convertible), every missing key takes its per-field default. -/
theorem settings_load_spec (ad : Bool) :
    Settings.load ad .absent = .ok (defaultSettings ad) ∧
    Settings.load ad .unreadable = .ok (defaultSettings ad) ∧
    Settings.load ad .invalidJson = .ok (defaultSettings ad) ∧
    ∀ (kvs : List (String × JsonVal)) (s : SettingsFull),
      Settings.load ad (.parsed (.obj kvs)) = .ok s →
      (kvs.find? (fun kv => kv.1 = "folder") = none →
        s.folder = .str DEFAULT_FOLDER) ∧
      (kvs.find? (fun kv => kv.1 = "interval_seconds") = none →
        s.interval_seconds = DEFAULT_INTERVAL) ∧
      (kvs.find? (fun kv => kv.1 = "autostart_enabled") = none →
        s.autostart_enabled = ad) ∧
      (kvs.find? (fun kv => kv.1 = "random_mode") = none →
        s.random_mode = false) ∧
      (kvs.find? (fun kv => kv.1 = "random_min_seconds") = none →
        s.random_min_seconds = DEFAULT_RANDOM_MIN) ∧
      (kvs.find? (fun kv => kv.1 = "random_max_seconds") = none →
        s.random_max_seconds = DEFAULT_RANDOM_MAX) ∧
      (kvs.find? (fun kv => kv.1 = "edge_background_enabled") = none →
        s.edge_background_enabled = false) := by
  refine ⟨rfl, rfl, rfl, ?_⟩
  intro kvs s hload
  simp only [Settings.load] at hload
  rcases hl : loadFromData ad (.obj kvs) with e | v
  · rw [hl] at hload
    cases e <;> simp only [] at hload
    · exact absurd hload (by simp)
    · exact absurd hload (by simp)
    · exact absurd hload (by simp)
    · -- valueError: the whole try-block falls back to the defaults
      injection hload with hdef
      subst hdef
      exact ⟨fun _ => rfl, fun _ => rfl, fun _ => rfl, fun _ => rfl,
        fun _ => rfl, fun _ => rfl, fun _ => rfl⟩
    · exact absurd hload (by simp)
  · rw [hl] at hload
    injection hload with hvs
    subst hvs
    rw [loadFromData] at hl
    rcases h1 : pyInt (jget kvs "interval_seconds" (.num DEFAULT_INTERVAL))
      with e1 | v1
    · rw [h1] at hl
      exact absurd hl (by simp)
    · rw [h1] at hl
      rcases h2 : pyInt (jget kvs "random_min_seconds" (.num DEFAULT_RANDOM_MIN))
        with e2 | v2
      · rw [h2] at hl
        exact absurd hl (by simp)
      · rw [h2] at hl
        rcases h3 : pyInt (jget kvs "random_max_seconds" (.num DEFAULT_RANDOM_MAX))
          with e3 | v3
        · rw [h3] at hl
          exact absurd hl (by simp)
        · rw [h3] at hl
          injection hl with hv
          subst hv
          refine ⟨?_, ?_, ?_, ?_, ?_, ?_, ?_⟩ <;> intro hfind
          · simp [jget, hfind]
          · simp only [jget, hfind] at h1
            simp only [pyInt] at h1
            injection h1 with h1v
            exact h1v.symm
          · simp [jget, hfind, pyBool]
          · simp [jget, hfind, pyBool]
          · simp only [jget, hfind] at h2
            simp only [pyInt] at h2
            injection h2 with h2v
            exact h2v.symm
          · simp only [jget, hfind] at h3
            simp only [pyInt] at h3
            injection h3 with h3v
            exact h3v.symm
          · simp [jget, hfind, pyBool]

/-- Witness for `settings_load_spec`: loading an empty JSON object yields
every field at its default. -/
theorem settings_load_spec_witness :
    Settings.load true (.parsed (.obj [])) = .ok (defaultSettings true) ∧
    (defaultSettings true).interval_seconds = DEFAULT_INTERVAL :=
  ⟨rfl, ((settings_load_spec true).2.2.2 [] (defaultSettings true) rfl).2.1 rfl⟩

/-- C7: `iter_images` yields the empty sequence (not an error) for a
missing or non-directory folder; otherwise its output contains exactly the
paths of the regular files whose extension (case-insensitively) is one of
png/jpg/jpeg/bmp/gif — and, when the listing's names are distinct as a real
directory's are, each such file appears exactly once, in some
(shuffle-dependent) order. -/
theorem iter_images_spec (folder : Path) (sh : List Path → List Path)
    (hsh : ∀ xs, (sh xs).Perm xs) :
    iter_images none folder sh = [] ∧
    (∀ (entries : List DirEntry) (p : Path),
      p ∈ iter_images (some entries) folder sh ↔
        ∃ e ∈ entries, e.isFile ∧ isSupportedName e.name ∧
          p = folder ++ [e.name]) ∧
    (∀ entries : List DirEntry, (entries.map DirEntry.name).Nodup →
      ∀ name : String,
        (iter_images (some entries) folder sh).count (folder ++ [name]) =
          if (⟨name, true⟩ : DirEntry) ∈ entries ∧ isSupportedName name
          then 1 else 0) := by
  refine ⟨rfl, ?_, ?_⟩
  · intro entries p
    simp only [iter_images]
    rw [(hsh _).mem_iff]
    simp only [List.mem_map, List.mem_filter, Bool.and_eq_true]
    constructor
    · rintro ⟨e, ⟨he, hf, hs⟩, rfl⟩
      exact ⟨e, he, hf, hs, rfl⟩
    · rintro ⟨e, he, hf, hs, rfl⟩
      exact ⟨e, ⟨he, hf, hs⟩, rfl⟩
  · intro entries hnodup name
    simp only [iter_images]
    rw [List.count_eq_countP, (hsh _).countP_eq, List.countP_map,
      List.countP_filter]
    by_cases hsup : isSupportedName name
    · have hpred : ∀ e ∈ entries,
          (((· == folder ++ [name]) ∘ fun e : DirEntry => folder ++ [e.name]) e &&
            (e.isFile && isSupportedName e.name)) = (e == ⟨name, true⟩) := by
        intro e _
        rcases e with ⟨en, ef⟩
        by_cases hname : en = name
        · subst hname
          cases ef <;> simp [hsup]
        · have h1 : (folder ++ [en] == folder ++ [name]) = false := by
            rw [beq_eq_false_iff_ne]
            intro hc
            exact hname (by injection (List.append_cancel_left hc))
          have h2 : ((⟨en, ef⟩ : DirEntry) == ⟨name, true⟩) = false := by
            rw [beq_eq_false_iff_ne]
            intro hc
            injection hc with hen hef
            exact hname hen
          rw [Function.comp_apply, h1, h2, Bool.false_and]
      rw [List.countP_congr (fun e he => by rw [hpred e he]),
        ← List.count_eq_countP]
      have hnd : entries.Nodup := hnodup.of_map _
      by_cases hmem : (⟨name, true⟩ : DirEntry) ∈ entries
      · rw [List.count_eq_one_of_mem hnd hmem, if_pos ⟨hmem, hsup⟩]
      · rw [List.count_eq_zero_of_not_mem hmem,
          if_neg (fun hc => hmem hc.1)]
    · rw [if_neg (fun hc => hsup hc.2)]
      rw [List.countP_eq_zero]
      intro e _ hpe
      rcases e with ⟨en, ef⟩
      simp only [Function.comp, Bool.and_eq_true, beq_iff_eq] at hpe
      obtain ⟨happ, -, hsupp⟩ := hpe
      have hname : en = name := by
        have := List.append_cancel_left happ
        injection this
      exact hsup (hname ▸ hsupp)

/-- Witness for `iter_images_spec` at the spec's own scenario: a folder
listing `a.png, b.jpg, c.txt, d.gif` yields `a.png` exactly once and
excludes `c.txt`. -/
theorem iter_images_spec_witness :
    (iter_images (some [⟨"a.png", true⟩, ⟨"b.jpg", true⟩, ⟨"c.txt", true⟩,
        ⟨"d.gif", true⟩]) ["f"] id).count (["f"] ++ ["a.png"]) = 1 ∧
    (iter_images (some [⟨"a.png", true⟩, ⟨"b.jpg", true⟩, ⟨"c.txt", true⟩,
        ⟨"d.gif", true⟩]) ["f"] id).count (["f"] ++ ["c.txt"]) = 0 := by
  have h := (iter_images_spec ["f"] id (fun xs => List.Perm.refl xs)).2.2
    [⟨"a.png", true⟩, ⟨"b.jpg", true⟩, ⟨"c.txt", true⟩, ⟨"d.gif", true⟩]
    (by decide)
  constructor
  · rw [h "a.png", if_pos (by decide)]
  · rw [h "c.txt", if_neg (by decide)]

/-- C8: construction, refresh and (completed) picks all preserve the pool
invariant: once the image list is non-empty, the cursor is `-1` or a valid
index into the list. -/
theorem pool_invariant_preserved :
    poolInv ServiceState.init ∧
    (∀ (fs : FolderFS) (folder : Path) (shR : List Path → List Path)
        (s s' : ServiceState),
      refresh_images false fs folder shR s = some s' → poolInv s') ∧
    (∀ (fs : FolderFS) (folder : Path) (shR sh : List Path → List Path)
        (s s' : ServiceState) (pick : Option Path),
      poolInv s → next_wallpaper fs folder shR sh s = some (s', pick) →
      poolInv s') := by
  refine ⟨fun h => absurd rfl h, ?_, ?_⟩
  · intro fs folder shR s s' h
    have hs : s' = { images := iter_images fs folder shR, index := -1 } := by
      simpa [refresh_images] using h.symm
    subst hs
    intro _
    exact Or.inl rfl
  · intro fs folder shR sh s s' pick hinv h
    obtain ⟨imgs, idx⟩ := s
    by_cases hemp : imgs = []
    · subst hemp
      rw [next_wallpaper_empty] at h
      exact absurd h (by simp)
    · have hinv' := hinv hemp
      by_cases hge : (imgs.length : Int) ≤ idx + 1
      · by_cases hshp : sh imgs = []
        · rw [next_wallpaper_wrap_shuffle_nil fs folder shR sh imgs idx
            hemp hshp hge] at h
          exact absurd h (by simp)
        · rw [next_wallpaper_wrap fs folder shR sh imgs idx
            hemp hshp hge] at h
          simp only [Option.some.injEq, Prod.mk.injEq] at h
          obtain ⟨hs, -⟩ := h
          subst hs
          intro _
          refine Or.inr ⟨le_refl 0, ?_⟩
          dsimp only
          exact_mod_cast List.length_pos.mpr hshp
      · have h01 : (0 : Int) ≤ idx + 1 := by
          dsimp only [poolInv] at hinv'
          rcases hinv' with h' | ⟨h1, h2⟩ <;> omega
        rw [next_wallpaper_no_wrap fs folder shR sh imgs idx
          hemp h01 (not_le.mp hge)] at h
        simp only [Option.some.injEq, Prod.mk.injEq] at h
        obtain ⟨hs, -⟩ := h
        subst hs
        intro _
        exact Or.inr ⟨h01, not_le.mp hge⟩

/-- Witness for `pool_invariant_preserved`: a completed pick from a fresh
singleton pool lands in an invariant-satisfying state. -/
theorem pool_invariant_preserved_witness :
    poolInv ⟨[["a"]], 0⟩ :=
  pool_invariant_preserved.2.2 none [] id id ⟨[["a"]], -1⟩ ⟨[["a"]], 0⟩
    (some ["a"]) (fun _ => Or.inl rfl) rfl

/-- C10: every `set_wallpaper` call, whatever the apply/browser-sync flags,
first attempts the shared copy: the very first effect writes
`randombg_wallpaper.png` into the source image's own directory; that name
passes the extension filter, so the copy joins the pool on the next
refresh of a folder whose listing contains it. -/
theorem setWallpaper_sharedWrite_first (env : Env) (image_path : Path)
    (a e c f : Bool) :
    (set_wallpaper env image_path a e c f).1.head? =
      some (.sharedWrite (image_path.dropLast ++ ["randombg_wallpaper.png"])) ∧
    isSupportedName "randombg_wallpaper.png" = true ∧
    (∀ (entries : List DirEntry) (folder : Path) (sh : List Path → List Path),
      (∀ xs, (sh xs).Perm xs) →
      (⟨"randombg_wallpaper.png", true⟩ : DirEntry) ∈ entries →
      folder ++ ["randombg_wallpaper.png"] ∈
        iter_images (some entries) folder sh) := by
  refine ⟨?_, by decide, ?_⟩
  · rcases hm : (if a then platform_handler_apply env image_path
        else Except.ok []) with er | effs
    · simp [set_wallpaper, hm, sharedTarget]
    · simp [set_wallpaper, hm, sharedTarget]
  · intro entries folder sh hsh hmem
    simp only [iter_images]
    rw [(hsh _).mem_iff]
    refine List.mem_map.mpr ⟨⟨"randombg_wallpaper.png", true⟩, ?_, rfl⟩
    exact List.mem_filter.mpr ⟨hmem, by decide⟩

/-- Witness for `setWallpaper_sharedWrite_first` with wallpaper application
off and all sync flags on: the shared copy is still attempted first, and it
is picked up by a refresh seeing it. -/
theorem setWallpaper_sharedWrite_first_witness :
    (set_wallpaper ⟨.windows, true, true, true, true⟩ ["d", "x.jpg"]
        false true true true).1.head? =
      some (.sharedWrite (["d", "x.jpg"].dropLast ++
        ["randombg_wallpaper.png"])) ∧
    ["d"] ++ ["randombg_wallpaper.png"] ∈
      iter_images (some [⟨"randombg_wallpaper.png", true⟩]) ["d"] id := by
  have h := setWallpaper_sharedWrite_first ⟨.windows, true, true, true, true⟩
    ["d", "x.jpg"] false true true true
  exact ⟨h.1, h.2.2 [⟨"randombg_wallpaper.png", true⟩] ["d"] id
    (fun xs => List.Perm.refl xs) (by decide)⟩

/-- C3 counterexample: a three-image pool with legal shuffle outcomes
(a reversal at the first wrap, identity at the second) in which picks 2 and
3 are equal — the wrap repeat — and the 2N-pick window starting at pick 2
contains image `a` only once. Both conjuncts of the claim fail. -/
theorem picks_repeat_counterexample :
    1 < demoPool.length ∧ demoPool.Nodup ∧
    (demoShs 3 [["a"], ["b"], ["c"]]).Perm [["a"], ["b"], ["c"]] ∧
    (demoShs 6 [["c"], ["b"], ["a"]]).Perm [["c"], ["b"], ["a"]] ∧
    npPick none [] id demoShs ⟨demoPool, -1⟩ 2 = some ["c"] ∧
    npPick none [] id demoShs ⟨demoPool, -1⟩ 3 = some ["c"] ∧
    ((List.range 6).map
        (fun j => npPick none [] id demoShs ⟨demoPool, -1⟩ (2 + j))).count
      (some ["a"]) = 1 := by
  refine ⟨by decide, by decide, by decide, by decide, rfl, rfl, rfl⟩

/-- C3 amended: for pools of N > 1 distinct images, two consecutive picks
with no wrap between them (the later pick's position is not a multiple of N)
are never equal, and every window of 2N consecutive picks contains every
image at least once (it spans a complete cycle). At a wrap boundary the two
picks may coincide, and an image can appear only once in a 2N window, as
the counterexample shows. -/
theorem picks_no_repeat_within_cycle_and_coverage (fs : FolderFS)
    (folder : Path) (shR : List Path → List Path)
    (shs : Nat → List Path → List Path) (l : List Path)
    (hl1 : 1 < l.length) (hnodup : l.Nodup)
    (hsh : ∀ k xs, (shs k xs).Perm xs) :
    (∀ k : Nat, (k + 1) % l.length ≠ 0 →
      npPick fs folder shR shs ⟨l, -1⟩ k ≠
        npPick fs folder shR shs ⟨l, -1⟩ (k + 1)) ∧
    (∀ (k : Nat) (x : Path), x ∈ l →
      ∃ j, k ≤ j ∧ j < k + 2 * l.length ∧
        npPick fs folder shR shs ⟨l, -1⟩ j = some x) := by
  have hl : l ≠ [] := by
    intro h
    rw [h] at hl1
    simp at hl1
  have hn0 : 0 < l.length := by omega
  constructor
  · intro k hkmod heq
    have hA : k % l.length + 1 < l.length := by
      rcases Nat.lt_or_ge (k % l.length + 1) l.length with h | h
      · exact h
      · have hEq : k % l.length + 1 = l.length :=
          le_antisymm (Nat.succ_le_of_lt (Nat.mod_lt k hn0)) h
        exact absurd (succ_div_of_mod_succ_eq k l.length hn0 hEq).2.1 hkmod
    obtain ⟨hdiv, hmod⟩ := succ_div_of_mod_succ_lt k l.length hA
    rw [npPick_closed fs folder shR shs l hl hsh k,
      npPick_closed fs folder shR shs l hl hsh (k + 1), hdiv, hmod] at heq
    have hjlt : k % l.length < (cycles l shs (k / l.length)).length := by
      rw [cycles_length l shs hsh]
      omega
    have := List.getElem?_inj hjlt
      ((cycles_perm l shs hsh _).nodup_iff.mpr hnodup) heq
    omega
  · intro k x hx
    have hxi : x ∈ cycles l shs (k / l.length + 1) :=
      ((cycles_perm l shs hsh _).mem_iff).mpr hx
    obtain ⟨m, hm, hget⟩ := List.mem_iff_getElem.mp hxi
    have hmlen : m < l.length := by
      rwa [cycles_length l shs hsh] at hm
    refine ⟨(k / l.length + 1) * l.length + m, ?_, ?_, ?_⟩
    · have hdm := Nat.div_add_mod k l.length
      have hlt := Nat.mod_lt k hn0
      have hmul : (k / l.length + 1) * l.length =
          l.length * (k / l.length) + l.length := by ring
      omega
    · have h2 : (k / l.length) * l.length ≤ k := Nat.div_mul_le_self k l.length
      have hmul : (k / l.length + 1) * l.length =
          (k / l.length) * l.length + l.length := by ring
      omega
    · rw [npPick_closed fs folder shR shs l hl hsh]
      have hdiv : ((k / l.length + 1) * l.length + m) / l.length =
          k / l.length + 1 := by
        rw [Nat.mul_comm, Nat.mul_add_div hn0, Nat.div_eq_of_lt hmlen,
          Nat.add_zero]
      have hmod : ((k / l.length + 1) * l.length + m) % l.length = m := by
        rw [Nat.mul_comm, Nat.mul_add_mod, Nat.mod_eq_of_lt hmlen]
      rw [hdiv, hmod, List.getElem?_eq_getElem hm, hget]

/-- Witness for `picks_no_repeat_within_cycle_and_coverage` on a concrete
two-image pool with identity shuffles. -/
theorem picks_no_repeat_witness :
    npPick none [] id (fun _ xs => xs) ⟨[["a"], ["b"]], -1⟩ 0 ≠
      npPick none [] id (fun _ xs => xs) ⟨[["a"], ["b"]], -1⟩ 1 ∧
    ∃ j, 0 ≤ j ∧ j < 0 + 2 * ([["a"], ["b"]] : List Path).length ∧
      npPick none [] id (fun _ xs => xs) ⟨[["a"], ["b"]], -1⟩ j =
        some ["a"] := by
  have h := picks_no_repeat_within_cycle_and_coverage none [] id
    (fun _ xs => xs) [["a"], ["b"]] (by decide) (by decide)
    (fun _ _ => List.Perm.refl _)
  exact ⟨h.1 0 (by decide), h.2 0 ["a"] (by decide)⟩

/-- C4: (1) a pick from a non-empty pool advances the cursor by 1, and when
the advanced cursor would run past the end the whole pool is re-permuted
and the cursor reset to 0; (2) within each full cycle every image is picked
exactly once before any repeat; (3) a singleton pool re-selects its one
image on every pick, with no error. -/
theorem pick_cursor_cycle_spec :
    (∀ (fs : FolderFS) (folder : Path) (shR sh : List Path → List Path)
        (p : List Path) (e : Int), p ≠ [] →
      (0 ≤ e + 1 → e + 1 < (p.length : Int) →
        next_wallpaper fs folder shR sh ⟨p, e⟩ =
          some (⟨p, e + 1⟩, p[(e + 1).toNat]?)) ∧
      ((p.length : Int) ≤ e + 1 → sh p ≠ [] →
        next_wallpaper fs folder shR sh ⟨p, e⟩ =
          some (⟨sh p, 0⟩, (sh p)[0]?))) ∧
    (∀ (fs : FolderFS) (folder : Path) (shR : List Path → List Path)
        (shs : Nat → List Path → List Path) (l : List Path),
      l ≠ [] → l.Nodup → (∀ k xs, (shs k xs).Perm xs) →
      ∀ (i : Nat) (x : Path), x ∈ l →
        ∃! j, j < l.length ∧
          npPick fs folder shR shs ⟨l, -1⟩ (i * l.length + j) = some x) ∧
    (∀ (fs : FolderFS) (folder : Path) (shR : List Path → List Path)
        (shs : Nat → List Path → List Path) (a : Path),
      (∀ k xs, (shs k xs).Perm xs) →
      ∀ k, npPick fs folder shR shs ⟨[a], -1⟩ k = some a) := by
  refine ⟨?_, ?_, ?_⟩
  · intro fs folder shR sh p e hp
    exact ⟨fun he hlt => next_wallpaper_no_wrap fs folder shR sh p e hp he hlt,
      fun hge hshp => next_wallpaper_wrap fs folder shR sh p e hp hshp hge⟩
  · intro fs folder shR shs l hl hnodup hsh i x hx
    have hn0 : 0 < l.length := List.length_pos.mpr hl
    have hcycperm := cycles_perm l shs hsh i
    have hcnodup : (cycles l shs i).Nodup := hcycperm.nodup_iff.mpr hnodup
    have hxc : x ∈ cycles l shs i := hcycperm.mem_iff.mpr hx
    obtain ⟨j, hj, hget⟩ := List.mem_iff_getElem.mp hxc
    have hjlen : j < l.length := by
      rwa [cycles_length l shs hsh i] at hj
    refine ⟨j, ⟨hjlen, ?_⟩, ?_⟩
    · rw [npPick_closed fs folder shR shs l hl hsh]
      have hdiv : (i * l.length + j) / l.length = i := by
        rw [Nat.mul_comm, Nat.mul_add_div hn0, Nat.div_eq_of_lt hjlen,
          Nat.add_zero]
      have hmod : (i * l.length + j) % l.length = j := by
        rw [Nat.mul_comm, Nat.mul_add_mod, Nat.mod_eq_of_lt hjlen]
      rw [hdiv, hmod, List.getElem?_eq_getElem hj, hget]
    · rintro j' ⟨hj', hpick⟩
      rw [npPick_closed fs folder shR shs l hl hsh] at hpick
      have hdiv' : (i * l.length + j') / l.length = i := by
        rw [Nat.mul_comm, Nat.mul_add_div hn0, Nat.div_eq_of_lt hj',
          Nat.add_zero]
      have hmod' : (i * l.length + j') % l.length = j' := by
        rw [Nat.mul_comm, Nat.mul_add_mod, Nat.mod_eq_of_lt hj']
      rw [hdiv', hmod'] at hpick
      have heq : (cycles l shs i)[j']? = (cycles l shs i)[j]? := by
        rw [hpick, List.getElem?_eq_getElem hj, hget]
      exact List.getElem?_inj
        (by rwa [cycles_length l shs hsh i]) hcnodup heq
  · intro fs folder shR shs a hsh k
    rw [npPick_closed fs folder shR shs [a] (by simp) hsh]
    have hsing : cycles [a] shs (k / [a].length) = [a] :=
      List.perm_singleton.mp (cycles_perm [a] shs hsh _)
    rw [hsing, List.length_singleton, Nat.mod_one]
    rfl

/-- Witness for `pick_cursor_cycle_spec`: a concrete wrap pick that
re-permutes a two-image pool, and a singleton pool whose sixth pick is
still its only image. -/
theorem pick_cursor_cycle_spec_witness :
    next_wallpaper none [] id List.reverse ⟨[["a"], ["b"]], 1⟩ =
      some (⟨List.reverse [["a"], ["b"]], 0⟩,
        (List.reverse [["a"], ["b"]])[0]?) ∧
    npPick none [] id (fun _ xs => xs) ⟨[["z"]], -1⟩ 5 = some ["z"] :=
  ⟨(pick_cursor_cycle_spec.1 none [] id List.reverse [["a"], ["b"]] 1
      (by decide)).2 (by decide) (by decide),
    pick_cursor_cycle_spec.2.2 none [] id (fun _ xs => xs) ["z"]
      (fun _ _ => List.Perm.refl _) 5⟩

example : splitextExt "a.PNG" = ".PNG" := by decide
example : splitextExt ".png" = "" := by decide
example : splitextExt "b.tar.gz" = ".gz" := by decide
example : splitextExt "noext" = "" := by decide
example : isSupportedName "a.JpG" = true := by decide
example : isSupportedName "c.txt" = false := by decide
example : isSupportedName "randombg_wallpaper.png" = true := by decide

end RandomBG
